import Mathlib

/-!
Verification of the catalog ingestion and query pipeline of the OpenClaw
Skills Explorer dashboard.

The development shallowly embeds the JavaScript core of the repository:

* the browse-view filter/sort/paginate engine of `BrowseSection`
  (filter predicate, the dynamic sort comparator, page slicing),
* the findings-grouping engine of `FindingsModal`
  (group-by rule id, severity-ordered output),
* the SQL aggregation queries issued by `useSkillsData` against the
  `skills` and `findings` relations (modelled as list transformations),
* the asynchronous load pipeline of `useSkillsData` (modelled as a pure
  function from the outcome of each suspension point to the list of
  published events).

JavaScript numbers that hold integral aggregate counts are modelled as
`Int`; the narrowing of engine-side wide integers to doubles is out of
scope (an accepted limitation documented by the project).  JavaScript
strings are modelled as `String`; `toLowerCase` as `String.toLower` and
`includes` as list infix on the character lists.
-/

set_option linter.unusedVariables false

/-- One row of `data.browseSkills`, the flattened active-entry list consumed
by `BrowseSection` (fields selected by the browse query of `useSkillsData`,
after the JS normalization map). -/
structure BrowseRow where
  skill_path : String
  skill_name : String
  skill_author : String
  skill_display_name : String
  skill_description : Option String
  skill_version : String
  category : String
  level : String
  findings : Int
  date_added : Option Int
  folder_size_bytes : Int
  file_count : Int
  script_count : Int
  md_count : Int
deriving DecidableEq, Repr

/-- JS `hay.includes needle`: `needle` occurs contiguously in `hay`. -/
def jsIncludes (hay needle : String) : Bool :=
  decide (needle.toList <:+: hay.toList)

/-- The filter predicate of `BrowseSection` (the body of
`browseSkills.filter`): early-return on a failed search match, then on a
category mismatch, then on a risk-level mismatch. -/
def passesFilter (query catFilter riskFilter : String) (r : BrowseRow) : Bool :=
  let q := query.toLower
  if q != "" &&
      !(jsIncludes (r.skill_path.toLower) q ||
        jsIncludes (r.skill_author.toLower) q ||
        jsIncludes (r.skill_display_name.toLower) q ||
        jsIncludes ((r.skill_description.getD "").toLower) q) then
    false
  else if catFilter != "" && r.category != catFilter then
    false
  else if riskFilter != "" && r.level != riskFilter then
    false
  else
    true

/-- The filtered list (`filtered` in `BrowseSection`). -/
def filteredSkills (entries : List BrowseRow) (query catFilter riskFilter : String) :
    List BrowseRow :=
  entries.filter (passesFilter query catFilter riskFilter)

/-- The sortable column keys of the browse table (the `COLS` array). -/
inductive SortKey where
  | skill_path
  | skill_author
  | category
  | level
  | findings
  | date_added
  | file_count
  | script_count
  | md_count
  | folder_size_bytes
deriving DecidableEq, Repr

/-- A JS value as it appears in the sort comparator after per-key coercion:
either a number or a string. -/
inductive JsVal where
  | num (n : Int)
  | str (s : String)
deriving DecidableEq, Repr

/-- The `RISK_ORDER` table of `BrowseSection`; `RISK_ORDER[av] ?? 9` for a
level outside the table. -/
def riskOrderVal (level : String) : Int :=
  if level == "CRITICAL" then 0
  else if level == "HIGH" then 1
  else if level == "MEDIUM" then 2
  else if level == "LOW" then 3
  else if level == "CLEAN" then 4
  else if level == "UNKNOWN" then 5
  else 9

/-- Per-key coercion performed by the comparator of `BrowseSection`:
dates to epoch (falsy date to 0), count columns to numbers, the risk level
through `RISK_ORDER`, all other keys to lower-cased strings. -/
def sortVal (k : SortKey) (r : BrowseRow) : JsVal :=
  match k with
  | .date_added => .num (r.date_added.getD 0)
  | .findings => .num r.findings
  | .file_count => .num r.file_count
  | .script_count => .num r.script_count
  | .md_count => .num r.md_count
  | .folder_size_bytes => .num r.folder_size_bytes
  | .level => .num (riskOrderVal r.level)
  | .skill_path => .str r.skill_path.toLower
  | .skill_author => .str r.skill_author.toLower
  | .category => .str r.category.toLower

/-- JS `av > bv` on two coerced sort values. -/
def jsValGt : JsVal → JsVal → Bool
  | .num a, .num b => decide (b < a)
  | .str a, .str b => decide (b < a)
  | _, _ => false

/-- JS `av < bv` on two coerced sort values. -/
def jsValLt : JsVal → JsVal → Bool
  | .num a, .num b => decide (a < b)
  | .str a, .str b => decide (a < b)
  | _, _ => false

/-- The comparator passed to `Array.prototype.sort` by `BrowseSection`:
`sortDir === "asc" ? (av > bv ? 1 : -1) : av < bv ? 1 : -1`.  `asc = true`
models `sortDir === "asc"`. -/
def rowCompare (k : SortKey) (asc : Bool) (a b : BrowseRow) : Int :=
  let av := sortVal k a
  let bv := sortVal k b
  if asc then (if jsValGt av bv then 1 else -1)
  else (if jsValLt av bv then 1 else -1)

/-- The fixed page size of the browse table (`PER_PAGE`). -/
def PER_PAGE : Nat := 50

/-- `Math.ceil(sorted.length / PER_PAGE)` over naturals. -/
def totalPages (l : List BrowseRow) : Nat :=
  (l.length + (PER_PAGE - 1)) / PER_PAGE

/-- `sorted.slice(page * PER_PAGE, (page + 1) * PER_PAGE)`. -/
def pageSlice (l : List BrowseRow) (page : Nat) : List BrowseRow :=
  (l.drop (page * PER_PAGE)).take PER_PAGE

/-- The Next-button update `Math.min(totalPages - 1, p + 1)`. -/
def nextPage (tp p : Nat) : Nat := min (tp - 1) (p + 1)

/-- The Prev-button update `Math.max(0, p - 1)` (truncated subtraction). -/
def prevPage (p : Nat) : Nat := p - 1

/-- The last-page button target `totalPages - 1`. -/
def lastPageBtn (tp : Nat) : Nat := tp - 1

/-- One row of the `findings` relation as selected by the `allFindings`
query of `useSkillsData` (`finding_category` aliased to `rule_cat`). -/
structure FindingRow where
  skill_path : String
  rule_id : String
  severity : String
  rule_cat : String
  title : String
  description : String
  line : Int
  evidence : String
  recommendation : String
deriving DecidableEq, Repr

/-- One group of the `FindingsModal` grouping: representative fields taken
from the first finding of the rule, plus the ordered hit list. -/
structure RuleGroup where
  rule_id : String
  severity : String
  title : String
  description : String
  recommendation : String
  hits : List FindingRow
deriving DecidableEq, Repr

/-- One step of the `findings.forEach` loop of `FindingsModal`: create the
group on first sight of a rule id, then push the finding onto its hit
list.  The JS object keyed by `rule_id` is modelled as an insertion-ordered
association list. -/
def addFinding (acc : List RuleGroup) (f : FindingRow) : List RuleGroup :=
  if acc.any (fun g => g.rule_id == f.rule_id) then
    acc.map (fun g =>
      if g.rule_id == f.rule_id then { g with hits := g.hits ++ [f] } else g)
  else
    acc ++ [{ rule_id := f.rule_id, severity := f.severity, title := f.title,
              description := f.description, recommendation := f.recommendation,
              hits := [f] }]

/-- The ungrouped-to-grouped map of `FindingsModal` before sorting
(`Object.values(map)` in insertion order). -/
def groupByRule (fs : List FindingRow) : List RuleGroup :=
  fs.foldl addFinding []

/-- The `SEV_ORDER` array of `FindingsModal`. -/
def SEV_ORDER : List String := ["CRITICAL", "HIGH", "MEDIUM", "LOW", "INFO"]

/-- JS `SEV_ORDER.indexOf(s)`: the position in the array, `-1` if absent. -/
def sevIndex (s : String) : Int :=
  if s ∈ SEV_ORDER then ((SEV_ORDER.indexOf s : Nat) : Int) else -1

/-- Model of `a.localeCompare(b)`.  For the ASCII rule identifiers this
dashboard uses, the default-locale collation agrees with code-unit
lexicographic comparison, which is what is modelled. -/
def localeCmp (a b : String) : Int :=
  if a < b then -1 else if b < a then 1 else 0

/-- The group comparator of `FindingsModal`: severity index difference,
falling back to `rule_id.localeCompare`. -/
def groupCompare (a b : RuleGroup) : Int :=
  let si := sevIndex a.severity
  let sj := sevIndex b.severity
  if si ≠ sj then si - sj else localeCmp a.rule_id b.rule_id

/-- Place `a` no later than `b`: the comparator is non-positive. -/
def groupLe (a b : RuleGroup) : Bool := decide (groupCompare a b ≤ 0)

/-- The sorted group list returned by the `groups` memo of `FindingsModal`.
`Array.prototype.sort` with this (consistent) comparator is modelled as a
stable merge sort driven by `groupLe`. -/
def groupedFindings (fs : List FindingRow) : List RuleGroup :=
  (groupByRule fs).mergeSort groupLe

/-- One row of the `skills` relation (the columns the embedded queries
read). -/
structure Skill where
  skill_path : String
  skill_name : String
  skill_author : String
  skill_display_name : String
  skill_description : Option String
  skill_version : Option String
  category : String
  scan_risk_level : String
  scan_findings_count : Int
  scan_date : Option String
  date_added : Option Int
  folder_size_bytes : Option Int
  file_count : Option Int
  script_count : Option Int
  md_count : Option Int
  is_deleted : Bool
  is_blacklisted : Bool
deriving DecidableEq, Repr

/-- One row of the `riskiest` query result. -/
structure RiskRow where
  skill_path : String
  skill_author : String
  category : String
  level : String
  findings : Int
  scan_date : Option String
deriving DecidableEq, Repr

/-- The `CASE scan_risk_level WHEN ... END` rank of the riskiest query:
CLEAN (and anything else) falls into the `ELSE 4` branch. -/
def riskRank (level : String) : Int :=
  if level == "CRITICAL" then 0
  else if level == "HIGH" then 1
  else if level == "MEDIUM" then 2
  else if level == "LOW" then 3
  else 4

/-- The WHERE clause of the riskiest query:
`scan_risk_level IN ('CRITICAL','HIGH','MEDIUM','LOW','CLEAN') AND NOT is_deleted`. -/
def riskiestPred (s : Skill) : Bool :=
  (s.scan_risk_level == "CRITICAL" || s.scan_risk_level == "HIGH" ||
   s.scan_risk_level == "MEDIUM" || s.scan_risk_level == "LOW" ||
   s.scan_risk_level == "CLEAN") && !s.is_deleted

/-- The ORDER BY of the riskiest query: rank ascending, then
`scan_findings_count` descending.  Rows tied on both keys are returned in
an engine-chosen order; the model refines it to input order. -/
def riskiestLe (a b : Skill) : Bool :=
  decide (riskRank a.scan_risk_level < riskRank b.scan_risk_level) ||
  (decide (riskRank a.scan_risk_level = riskRank b.scan_risk_level) &&
   decide (b.scan_findings_count ≤ a.scan_findings_count))

/-- The projected columns of the riskiest query. -/
def projRisk (s : Skill) : RiskRow :=
  { skill_path := s.skill_path, skill_author := s.skill_author,
    category := s.category, level := s.scan_risk_level,
    findings := s.scan_findings_count, scan_date := s.scan_date }

/-- The riskiest query of `useSkillsData`: filter, order, project,
`LIMIT 50`. -/
def riskiestQuery (skills : List Skill) : List RiskRow :=
  (((skills.filter riskiestPred).mergeSort riskiestLe).map projRisk).take 50

/-- One raw row of the browse query, before the JS normalization map. -/
structure BrowseRowRaw where
  skill_path : String
  skill_name : String
  skill_author : String
  skill_display_name : String
  skill_description : Option String
  skill_version : Option String
  category : String
  level : String
  findings : Int
  date_added : Option Int
  folder_size_bytes : Option Int
  file_count : Option Int
  script_count : Option Int
  md_count : Option Int
deriving DecidableEq, Repr

/-- The projected columns of the browse query
(`scan_risk_level AS level`, `scan_findings_count AS findings`). -/
def projBrowse (s : Skill) : BrowseRowRaw :=
  { skill_path := s.skill_path, skill_name := s.skill_name,
    skill_author := s.skill_author, skill_display_name := s.skill_display_name,
    skill_description := s.skill_description, skill_version := s.skill_version,
    category := s.category, level := s.scan_risk_level,
    findings := s.scan_findings_count, date_added := s.date_added,
    folder_size_bytes := s.folder_size_bytes, file_count := s.file_count,
    script_count := s.script_count, md_count := s.md_count }

/-- `ORDER BY date_added DESC NULLS LAST` on two nullable dates. -/
def dateDescNullsLastLe (a b : Option Int) : Bool :=
  match a, b with
  | some x, some y => decide (y ≤ x)
  | some _, none => true
  | none, some _ => false
  | none, none => true

/-- The browse query of `useSkillsData`: active entries ordered most recent
first, null dates last. -/
def browseSkillsQuery (skills : List Skill) : List BrowseRowRaw :=
  ((skills.filter (fun s => !s.is_deleted)).map projBrowse).mergeSort
    (fun a b => dateDescNullsLastLe a.date_added b.date_added)

/-- The JS normalization applied to each browse row when the view-model is
assembled: `skill_version || ""` and `Number(... ?? 0)` on the count
columns. -/
def normalizeBrowse (r : BrowseRowRaw) : BrowseRow :=
  { skill_path := r.skill_path, skill_name := r.skill_name,
    skill_author := r.skill_author, skill_display_name := r.skill_display_name,
    skill_description := r.skill_description,
    skill_version := r.skill_version.getD "",
    category := r.category, level := r.level, findings := r.findings,
    date_added := r.date_added,
    folder_size_bytes := r.folder_size_bytes.getD 0,
    file_count := r.file_count.getD 0,
    script_count := r.script_count.getD 0,
    md_count := r.md_count.getD 0 }

/-- `data.browseSkills`: the browse query result after normalization. -/
def browseSkillsVm (skills : List Skill) : List BrowseRow :=
  (browseSkillsQuery skills).map normalizeBrowse

/-- The `CASE severity WHEN ... END` rank of the `allFindings` query
(no LOW/INFO arm: both fall into `ELSE 3`). -/
def sevCase (s : String) : Int :=
  if s == "CRITICAL" then 0
  else if s == "HIGH" then 1
  else if s == "MEDIUM" then 2
  else 3

/-- The ORDER BY of the `allFindings` query: `skill_path`, severity rank,
`line`. -/
def findingsOrderLe (a b : FindingRow) : Bool :=
  decide (a.skill_path < b.skill_path) ||
  (a.skill_path == b.skill_path &&
    (decide (sevCase a.severity < sevCase b.severity) ||
     (decide (sevCase a.severity = sevCase b.severity) &&
      decide (a.line ≤ b.line))))

/-- The `allFindings` query of `useSkillsData`: every finding, ordered. -/
def allFindingsQuery (fs : List FindingRow) : List FindingRow :=
  fs.mergeSort findingsOrderLe

/-- One step of the `allFindings.reduce` that builds `findingsBySkill`:
start the key with an empty list on first sight, then push. -/
def addToSkillMap (acc : List (String × List FindingRow)) (r : FindingRow) :
    List (String × List FindingRow) :=
  if acc.any (fun p => p.1 == r.skill_path) then
    acc.map (fun p => if p.1 == r.skill_path then (p.1, p.2 ++ [r]) else p)
  else
    acc ++ [(r.skill_path, [r])]

/-- `data.findingsBySkill`: the reduce over the ordered findings list. -/
def findingsBySkill (rows : List FindingRow) : List (String × List FindingRow) :=
  rows.foldl addToSkillMap []

/-- JS property access `findingsBySkill?.[path] || []` as performed by
`BrowseSection` when it opens the findings modal. -/
def lookupFindings (m : List (String × List FindingRow)) (p : String) :
    List FindingRow :=
  match m.find? (fun q => q.1 == p) with
  | some q => q.2
  | none => []

/-- The outcome of the guarded author-profiles fetch before the `r.ok`
check (`fetch(...).then(r => r.ok ? r.arrayBuffer() : null).catch(() => null)`);
only the ok flag matters downstream. -/
structure FetchResp where
  ok : Bool
deriving DecidableEq, Repr

/-- One row of the `author_profiles` query.  The display-only passthrough
columns (avatar URL, name, bio, company, location, created_at,
account_type, twitter handle) are spread unchanged by the source and are
omitted here; the four numeric columns the source normalizes are kept. -/
structure AuthorRow where
  username : String
  public_repos : Option Int
  followers : Option Int
  following : Option Int
  skill_count : Option Int
deriving DecidableEq, Repr

/-- The normalized profile stored in `authorProfiles`
(`Number(r.x ?? 0)` on each numeric column). -/
structure AuthorProfile where
  username : String
  public_repos : Int
  followers : Int
  following : Int
  skill_count : Int
deriving DecidableEq, Repr

/-- The per-row normalization of the `rows.forEach` profile loop. -/
def toProfile (r : AuthorRow) : AuthorProfile :=
  { username := r.username, public_repos := r.public_repos.getD 0,
    followers := r.followers.getD 0, following := r.following.getD 0,
    skill_count := r.skill_count.getD 0 }

/-- One step of the profile loop: `authorProfiles[r.username] = {...}`
(overwrite on a repeated username, keep first insertion position). -/
def upsertProfile (m : List (String × AuthorProfile)) (r : AuthorRow) :
    List (String × AuthorProfile) :=
  if m.any (fun p => p.1 == r.username) then
    m.map (fun p => if p.1 == r.username then (p.1, toProfile r) else p)
  else
    m ++ [(r.username, toProfile r)]

/-- The `authorProfiles` map built from the author query rows. -/
def buildProfiles (rows : List AuthorRow) : List (String × AuthorProfile) :=
  rows.foldl upsertProfile []

/-- One row of the `monthly` (daily growth) query. -/
structure MonthRow where
  day : String
  added : Int
deriving DecidableEq, Repr

/-- One point of `data.monthly`. -/
structure MonthPoint where
  month : String
  added : Int
deriving DecidableEq, Repr

/-- A name/count pair of the view-model (categories, severities, rules). -/
structure NameCnt where
  name : String
  cnt : Int
deriving DecidableEq, Repr

/-- One row of the category-count query. -/
structure CatRow where
  category : String
  cnt : Int
deriving DecidableEq, Repr

/-- One row of the risk-level-count query, and of `data.riskLevels`. -/
structure LevelRow where
  level : String
  cnt : Int
deriving DecidableEq, Repr

/-- One row of the author-count query. -/
structure AuthorCntRow where
  skill_author : String
  cnt : Int
deriving DecidableEq, Repr

/-- One pair of `data.authors`. -/
structure AuthorCnt where
  author : String
  cnt : Int
deriving DecidableEq, Repr

/-- One row of the findings-by-severity query. -/
structure SevRow where
  severity : String
  cnt : Int
deriving DecidableEq, Repr

/-- One row of the findings-by-rule-category query. -/
structure RuleRow where
  category : String
  cnt : Int
deriving DecidableEq, Repr

/-- The resolved value of the ten-query `Promise.all` of `useSkillsData`.
The stats query row is a JS object, modelled as an association list. -/
structure Gather where
  statsRow : List (List (String × Int))
  monthly : List MonthRow
  categories : List CatRow
  riskLevels : List LevelRow
  authors : List AuthorCntRow
  riskiest : List RiskRow
  findingsBySev : List SevRow
  findingsByRule : List RuleRow
  browseSkills : List BrowseRowRaw
  allFindings : List FindingRow
deriving Repr

/-- The single artifact `setData` publishes. -/
structure CatalogViewModel where
  stats : List (String × Int)
  authorProfiles : List (String × AuthorProfile)
  monthly : List MonthPoint
  categories : List NameCnt
  riskLevels : List LevelRow
  authors : List AuthorCnt
  riskiest : List RiskRow
  findingsBySev : List NameCnt
  findingsByRule : List NameCnt
  browseSkills : List BrowseRow
  findingsBySkill : List (String × List FindingRow)
deriving Repr

/-- The object literal passed to `setData`: every field of the view-model,
assembled from the gathered query results.  `Number` on an already-integral
scalar is the identity in this model. -/
def assembleVM (profiles : List (String × AuthorProfile))
    (raw : List (String × Int)) (g : Gather) : CatalogViewModel :=
  { stats := raw.map (fun kv => (kv.1, kv.2)),
    authorProfiles := profiles,
    monthly := g.monthly.map (fun r => { month := r.day, added := r.added }),
    categories := g.categories.map (fun r => { name := r.category, cnt := r.cnt }),
    riskLevels := g.riskLevels.map (fun r => { level := r.level, cnt := r.cnt }),
    authors := g.authors.map (fun r => { author := r.skill_author, cnt := r.cnt }),
    riskiest := g.riskiest.map (fun r => { r with findings := r.findings }),
    findingsBySev := g.findingsBySev.map (fun r => { name := r.severity, cnt := r.cnt }),
    findingsByRule := g.findingsByRule.map (fun r => { name := r.category, cnt := r.cnt }),
    browseSkills := g.browseSkills.map normalizeBrowse,
    findingsBySkill := findingsBySkill g.allFindings }

/-- The outcome of every suspension point of one run of the `load`
function, plus the value of the `cancelled` flag at each of its three
checks and at the `catch` handler.  Each `Except` is the settled state of
the corresponding awaited promise. -/
structure PipelineInput where
  initDb : Except String Unit
  skillsFetch : Except String Unit
  findingsFetch : Except String Unit
  authorsFetch : Except String FetchResp
  cancelledAtFetch : Bool
  loadSkills : Except String Unit
  loadFindings : Except String Unit
  loadAuthors : Except String Unit
  authorsQuery : Except String (List AuthorRow)
  cancelledAtAuthors : Bool
  queryGather : Except String Gather
  cancelledAtGather : Bool
  cancelledAtCatch : Bool

/-- `authorsBuf`: the mandatory fetches succeeded, and the guarded authors
fetch yields a buffer only on a network success with an ok response. -/
def authorsBufOf (inp : PipelineInput) : Option Unit :=
  match inp.authorsFetch with
  | .error _ => none
  | .ok r => if r.ok then some () else none

/-- The author-profiles block of `load`: skipped entirely without a buffer,
otherwise the unguarded `insertParquet` and the profile query (either of
which fails the pipeline). -/
def authorsStage (inp : PipelineInput) : Except String (List (String × AuthorProfile)) :=
  match authorsBufOf inp with
  | none => Except.ok []
  | some _ =>
    match inp.loadAuthors with
    | .error e => Except.error e
    | .ok _ =>
      match inp.authorsQuery with
      | .error e => Except.error e
      | .ok rows => Except.ok (buildProfiles rows)

/-- An observable effect of one run: `setData` or `setError`.
(`setLoading`/`setProgress` carry no data and are not modelled.) -/
inductive LoadEvent where
  | publish (vm : CatalogViewModel)
  | fail (msg : String)

/-- The `load` function of `useSkillsData` as a pure function from the
settled promise states to the list of published events, following the
source control flow: try body with three cancellation checks and early
returns, catch handler guarded by `!cancelled`. -/
def runLoad (inp : PipelineInput) : List LoadEvent :=
  let onError : String → List LoadEvent := fun e =>
    if inp.cancelledAtCatch then [] else [LoadEvent.fail e]
  match inp.initDb with
  | .error e => onError e
  | .ok _ =>
    match inp.skillsFetch with
    | .error e => onError e
    | .ok _ =>
      match inp.findingsFetch with
      | .error e => onError e
      | .ok _ =>
        if inp.cancelledAtFetch then [] else
        match inp.loadSkills with
        | .error e => onError e
        | .ok _ =>
          match inp.loadFindings with
          | .error e => onError e
          | .ok _ =>
            match authorsStage inp with
            | .error e => onError e
            | .ok profiles =>
              if inp.cancelledAtAuthors then [] else
              match inp.queryGather with
              | .error e => onError e
              | .ok g =>
                if inp.cancelledAtGather then [] else
                match g.statsRow with
                | [] => onError "Cannot convert undefined or null to object"
                | raw :: _ => [LoadEvent.publish (assembleVM profiles raw g)]

/-- Every step a successful publish needs: the init, the two mandatory
fetches, the two mandatory loads, the author stage (trivially ok when its
fetch failed), the query gather, and a non-empty stats result. -/
def pipelineOk (inp : PipelineInput) : Bool :=
  inp.initDb.isOk && inp.skillsFetch.isOk && inp.findingsFetch.isOk &&
  inp.loadSkills.isOk && inp.loadFindings.isOk && (authorsStage inp).isOk &&
  (match inp.queryGather with
   | .ok g => !g.statsRow.isEmpty
   | .error _ => false)

/-- The guarded authors fetch failed: network error or a non-ok response. -/
def authorsFetchFailed (inp : PipelineInput) : Bool :=
  match inp.authorsFetch with
  | .error _ => true
  | .ok r => !r.ok

/-- A concrete browse row used by concrete instances below. -/
def demoRowA : BrowseRow :=
  { skill_path := "alice/scan", skill_name := "scan", skill_author := "alice",
    skill_display_name := "Scan", skill_description := some "scans things",
    skill_version := "1.0", category := "tools", level := "HIGH",
    findings := 3, date_added := some 1704153600000,
    folder_size_bytes := 2048, file_count := 4, script_count := 1, md_count := 2 }

/-- A second concrete browse row with the same `date_added` as `demoRowA`
but a different path. -/
def demoRowB : BrowseRow :=
  { skill_path := "bob/format", skill_name := "format", skill_author := "bob",
    skill_display_name := "Format", skill_description := none,
    skill_version := "", category := "docs", level := "CLEAN",
    findings := 0, date_added := some 1704153600000,
    folder_size_bytes := 100, file_count := 1, script_count := 0, md_count := 1 }

/-- A non-deleted skill scanned CLEAN. -/
def cleanSkill : Skill :=
  { skill_path := "carol/tidy", skill_name := "tidy", skill_author := "carol",
    skill_display_name := "Tidy", skill_description := none,
    skill_version := none, category := "tools", scan_risk_level := "CLEAN",
    scan_findings_count := 0, scan_date := some "2024-02-01",
    date_added := some 1704067200000, folder_size_bytes := some 10,
    file_count := some 1, script_count := some 0, md_count := some 1,
    is_deleted := false, is_blacklisted := false }

/-- A non-deleted skill at path `alice/scan`. -/
def liveSkill : Skill :=
  { skill_path := "alice/scan", skill_name := "scan", skill_author := "alice",
    skill_display_name := "Scan", skill_description := some "scans things",
    skill_version := some "1.0", category := "tools", scan_risk_level := "HIGH",
    scan_findings_count := 3, scan_date := some "2024-02-01",
    date_added := some 1704153600000, folder_size_bytes := some 2048,
    file_count := some 4, script_count := some 1, md_count := some 2,
    is_deleted := false, is_blacklisted := false }

/-- A finding whose `skill_path` matches no non-deleted skill of
`[liveSkill]`. -/
def orphanFinding : FindingRow :=
  { skill_path := "gone/skill", rule_id := "EXEC-002", severity := "HIGH",
    rule_cat := "EXEC", title := "eval use", description := "calls eval",
    line := 12, evidence := "eval(x)", recommendation := "remove eval" }

/-- A finding used as a concrete grouping input. -/
def demoFinding : FindingRow :=
  { skill_path := "alice/scan", rule_id := "CRED-001", severity := "CRITICAL",
    rule_cat := "CRED", title := "hardcoded key", description := "key in source",
    line := 3, evidence := "api_key = ...", recommendation := "use env" }

/-- A gather result with one stats row and empty result sets. -/
def demoGather : Gather :=
  { statsRow := [[("total_active", 1), ("total_deleted", 0)]],
    monthly := [], categories := [], riskLevels := [], authors := [],
    riskiest := [], findingsBySev := [], findingsByRule := [],
    browseSkills := [], allFindings := [] }

/-- A run in which every step succeeds and no cancellation occurs. -/
def inpOk : PipelineInput :=
  { initDb := Except.ok (), skillsFetch := Except.ok (),
    findingsFetch := Except.ok (), authorsFetch := Except.ok { ok := true },
    cancelledAtFetch := false, loadSkills := Except.ok (),
    loadFindings := Except.ok (), loadAuthors := Except.ok (),
    authorsQuery := Except.ok [], cancelledAtAuthors := false,
    queryGather := Except.ok demoGather, cancelledAtGather := false,
    cancelledAtCatch := false }

/-- A run cancelled after the relation loads, before the query gather
settles (and still cancelled when the catch handler would run). -/
def inpCancelled : PipelineInput :=
  { inpOk with cancelledAtGather := true, cancelledAtCatch := true }

/-- A run whose optional author-profiles fetch got a 404, all else
successful. -/
def inpNoAuthors : PipelineInput :=
  { inpOk with authorsFetch := Except.ok { ok := false } }

theorem toLower_empty : ("" : String).toLower = "" := by
  have h := String.map_eq Char.toLower ""
  simpa [String.toLower] using h

theorem toLower_eq_empty_iff (s : String) : s.toLower = "" ↔ s = "" := by
  constructor
  · intro h
    have h2 : String.map Char.toLower s = ⟨s.data.map Char.toLower⟩ :=
      String.map_eq _ _
    have h3 : s.toLower = ⟨s.data.map Char.toLower⟩ := h2
    rw [h3] at h
    have h4 : s.data.map Char.toLower = [] := congrArg String.data h
    have h5 : s.data = [] := List.map_eq_nil_iff.mp h4
    cases s
    simp_all
  · intro h
    rw [h]
    exact toLower_empty

theorem passesFilter_eq (query catFilter riskFilter : String) (r : BrowseRow) :
    passesFilter query catFilter riskFilter r =
      ((query.toLower == "" ||
        (jsIncludes (r.skill_path.toLower) query.toLower ||
         jsIncludes (r.skill_author.toLower) query.toLower ||
         jsIncludes (r.skill_display_name.toLower) query.toLower ||
         jsIncludes ((r.skill_description.getD "").toLower) query.toLower)) &&
       (catFilter == "" || r.category == catFilter) &&
       (riskFilter == "" || r.level == riskFilter)) := by
  unfold passesFilter
  cases hq : (query.toLower == "") <;>
    cases hm : (jsIncludes (r.skill_path.toLower) query.toLower ||
      jsIncludes (r.skill_author.toLower) query.toLower ||
      jsIncludes (r.skill_display_name.toLower) query.toLower ||
      jsIncludes ((r.skill_description.getD "").toLower) query.toLower) <;>
    cases hc : (catFilter == "") <;> cases hcc : (r.category == catFilter) <;>
    cases hr : (riskFilter == "") <;> cases hrr : (r.level == riskFilter) <;>
    simp_all [bne]

/-- C4.  An entry passes the browse filter iff the search text
(case-insensitively; empty text always passing) is a substring of its
path, author, display name or description, and the category filter is
unset or equal, and the risk filter is unset or equal; with no filters
set, the filtered list is the input itself. -/
theorem browse_filter_conjunctive (query catFilter riskFilter : String)
    (r : BrowseRow) (entries : List BrowseRow) :
    (passesFilter query catFilter riskFilter r = true ↔
      ((query = "" ∨
         query.toLower.toList <:+: r.skill_path.toLower.toList ∨
         query.toLower.toList <:+: r.skill_author.toLower.toList ∨
         query.toLower.toList <:+: r.skill_display_name.toLower.toList ∨
         query.toLower.toList <:+: (r.skill_description.getD "").toLower.toList) ∧
       (catFilter = "" ∨ r.category = catFilter) ∧
       (riskFilter = "" ∨ r.level = riskFilter))) ∧
    filteredSkills entries "" "" "" = entries := by
  constructor
  · rw [passesFilter_eq]
    simp only [jsIncludes, Bool.and_eq_true, Bool.or_eq_true, beq_iff_eq,
      decide_eq_true_eq, toLower_eq_empty_iff]
    tauto
  · unfold filteredSkills
    rw [List.filter_eq_self]
    intro x _
    rw [passesFilter_eq]
    simp [toLower_empty]

/-- C2.  The browse sort comparator is not a consistent comparator: on two
rows tied on the sort key it answers `-1` for both argument orders (each
strictly before the other), and it never returns `0` for any key pair at
all.  ECMAScript guarantees a stable, order-respecting sort only for
consistent comparators, so ties carry no retained-order or idempotence
guarantee (V8's binary insertion pass in fact reverses them). -/
theorem browse_sort_comparator_inconsistent :
    (rowCompare SortKey.date_added true demoRowA demoRowB = -1 ∧
     rowCompare SortKey.date_added true demoRowB demoRowA = -1 ∧
     demoRowA ≠ demoRowB) ∧
    (∀ (k : SortKey) (asc : Bool) (a b : BrowseRow), rowCompare k asc a b ≠ 0) := by
  refine ⟨⟨by decide, by decide, by decide⟩, ?_⟩
  intro k asc a b
  unfold rowCompare
  cases asc <;> simp only [Bool.false_eq_true, if_false, if_true] <;>
    split <;> decide

theorem join_pageSlice (l : List BrowseRow) (n : Nat) :
    ((List.range n).map (pageSlice l)).flatten = l.take (n * PER_PAGE) := by
  induction n with
  | zero => simp
  | succ m ih =>
    rw [List.range_succ, List.map_append, List.flatten_append, ih]
    have h : (m + 1) * PER_PAGE = m * PER_PAGE + PER_PAGE := by ring
    rw [h, List.take_add]
    simp [pageSlice]

theorem totalPages_mul_ge (l : List BrowseRow) :
    l.length ≤ totalPages l * PER_PAGE := by
  unfold totalPages PER_PAGE
  have h1 := Nat.div_add_mod (l.length + 49) 50
  have h2 : (l.length + 49) % 50 < 50 := Nat.mod_lt _ (by norm_num)
  omega

/-- C7.  With at least one page, every navigation target (next, prev,
last) stays within `[0, totalPages - 1]`, and concatenating the pages in
order reconstructs the whole sequence: no duplicate, no omission. -/
theorem pagination_clamped_and_covering (l : List BrowseRow) (p : Nat)
    (hp : p < totalPages l) :
    nextPage (totalPages l) p < totalPages l ∧
    prevPage p < totalPages l ∧
    lastPageBtn (totalPages l) < totalPages l ∧
    ((List.range (totalPages l)).map (pageSlice l)).flatten = l := by
  refine ⟨?_, ?_, ?_, ?_⟩
  · unfold nextPage
    omega
  · unfold prevPage
    omega
  · unfold lastPageBtn
    omega
  · rw [join_pageSlice]
    exact List.take_of_length_le (totalPages_mul_ge l)

theorem pagination_witness :
    0 < totalPages [demoRowA] ∧
    (nextPage (totalPages [demoRowA]) 0 < totalPages [demoRowA] ∧
     prevPage 0 < totalPages [demoRowA] ∧
     lastPageBtn (totalPages [demoRowA]) < totalPages [demoRowA] ∧
     ((List.range (totalPages [demoRowA])).map (pageSlice [demoRowA])).flatten =
       [demoRowA]) :=
  ⟨by decide, pagination_clamped_and_covering [demoRowA] 0 (by decide)⟩

theorem addFinding_inv (acc : List RuleGroup) (processed : List FindingRow)
    (f : FindingRow)
    (hnd : (acc.map (fun g => g.rule_id)).Nodup)
    (hk : ∀ k, k ∈ acc.map (fun g => g.rule_id) ↔
            k ∈ processed.map (fun x => x.rule_id))
    (hg : ∀ g ∈ acc,
            g.hits = processed.filter (fun x => x.rule_id == g.rule_id) ∧
            ∃ f₀ t, g.hits = f₀ :: t ∧ g.severity = f₀.severity ∧
              g.title = f₀.title ∧ g.description = f₀.description ∧
              g.recommendation = f₀.recommendation) :
    ((addFinding acc f).map (fun g => g.rule_id)).Nodup ∧
    (∀ k, k ∈ (addFinding acc f).map (fun g => g.rule_id) ↔
       k ∈ (processed ++ [f]).map (fun x => x.rule_id)) ∧
    (∀ g ∈ addFinding acc f,
       g.hits = (processed ++ [f]).filter (fun x => x.rule_id == g.rule_id) ∧
       ∃ f₀ t, g.hits = f₀ :: t ∧ g.severity = f₀.severity ∧
         g.title = f₀.title ∧ g.description = f₀.description ∧
         g.recommendation = f₀.recommendation) := by
  unfold addFinding
  by_cases hmem : acc.any (fun g => g.rule_id == f.rule_id)
  · rw [if_pos hmem]
    have hmem2 : f.rule_id ∈ acc.map (fun g => g.rule_id) := by
      rw [List.any_eq_true] at hmem
      obtain ⟨g, hga, hge⟩ := hmem
      exact List.mem_map.mpr ⟨g, hga, beq_iff_eq.mp hge⟩
    have hkeys : (acc.map (fun g =>
        if g.rule_id == f.rule_id then { g with hits := g.hits ++ [f] } else g)).map
          (fun g => g.rule_id) = acc.map (fun g => g.rule_id) := by
      rw [List.map_map]
      apply List.map_congr_left
      intro g _
      by_cases h : g.rule_id = f.rule_id <;> simp [h]
    refine ⟨by rw [hkeys]; exact hnd, ?_, ?_⟩
    · intro k
      rw [hkeys, List.map_append, List.mem_append, hk]
      have hf : f.rule_id ∈ processed.map (fun x => x.rule_id) := (hk _).mp hmem2
      simp only [List.map_cons, List.map_nil, List.mem_singleton]
      constructor
      · exact fun h => Or.inl h
      · rintro (h | h)
        · exact h
        · rw [h]
          exact hf
    · intro g' hg'
      obtain ⟨g, hga, hge⟩ := List.mem_map.mp hg'
      by_cases h : g.rule_id == f.rule_id
      · rw [if_pos h] at hge
        have heq : g.rule_id = f.rule_id := beq_iff_eq.mp h
        obtain ⟨hhits, f₀, t, hcons, hsev, htit, hdesc, hrec⟩ := hg g hga
        subst hge
        refine ⟨?_, f₀, t ++ [f], by simp [hcons], hsev, htit, hdesc, hrec⟩
        simp only [List.filter_append, hhits]
        congr 1
        simp [heq]
      · rw [if_neg h] at hge
        subst hge
        obtain ⟨hhits, hrep⟩ := hg g hga
        refine ⟨?_, hrep⟩
        rw [List.filter_append, hhits]
        have : (List.filter (fun x => x.rule_id == g.rule_id) [f]) = [] := by
          simp only [List.filter_cons, List.filter_nil]
          rw [if_neg]
          intro hc
          exact h (by rw [beq_iff_eq] at hc ⊢; exact hc.symm)
        rw [this, List.append_nil]
  · rw [if_neg hmem]
    have hall : ∀ g ∈ acc, ¬(g.rule_id == f.rule_id) = true := by
      intro g hga hc
      exact hmem (List.any_eq_true.mpr ⟨g, hga, hc⟩)
    have hnotin : f.rule_id ∉ acc.map (fun g => g.rule_id) := by
      intro hc
      obtain ⟨g, hga, hge⟩ := List.mem_map.mp hc
      exact hall g hga (beq_iff_eq.mpr hge)
    have hnotproc : f.rule_id ∉ processed.map (fun x => x.rule_id) :=
      fun hc => hnotin ((hk _).mpr hc)
    refine ⟨?_, ?_, ?_⟩
    · rw [List.map_append]
      rw [List.nodup_append]
      refine ⟨hnd, by simp, ?_⟩
      intro k hk1 hk2
      simp only [List.map_cons, List.map_nil, List.mem_singleton] at hk2
      rw [hk2] at hk1
      exact hnotin hk1
    · intro k
      rw [List.map_append, List.map_append, List.mem_append, List.mem_append, hk]
      simp
    · intro g' hg'
      rcases List.mem_append.mp hg' with h | h
      · obtain ⟨hhits, hrep⟩ := hg g' h
        refine ⟨?_, hrep⟩
        rw [List.filter_append, hhits]
        have : (List.filter (fun x => x.rule_id == g'.rule_id) [f]) = [] := by
          simp only [List.filter_cons, List.filter_nil]
          rw [if_neg]
          intro hc
          apply hall g' h
          rw [beq_iff_eq] at hc ⊢
          exact hc.symm
        rw [this, List.append_nil]
      · simp only [List.mem_singleton] at h
        subst h
        refine ⟨?_, f, [], rfl, rfl, rfl, rfl, rfl⟩
        rw [List.filter_append]
        have h1 : processed.filter (fun x => x.rule_id == f.rule_id) = [] := by
          rw [List.filter_eq_nil_iff]
          intro x hx hc
          exact hnotproc (List.mem_map.mpr ⟨x, hx, beq_iff_eq.mp hc⟩)
        have h2 : (List.filter (fun x => x.rule_id == f.rule_id) [f]) = [f] := by
          simp
        rw [h1, h2, List.nil_append]

theorem foldl_addFinding_inv (fs : List FindingRow) :
    ∀ (acc : List RuleGroup) (processed : List FindingRow),
    ((acc.map (fun g => g.rule_id)).Nodup ∧
     (∀ k, k ∈ acc.map (fun g => g.rule_id) ↔
        k ∈ processed.map (fun x => x.rule_id)) ∧
     (∀ g ∈ acc,
        g.hits = processed.filter (fun x => x.rule_id == g.rule_id) ∧
        ∃ f₀ t, g.hits = f₀ :: t ∧ g.severity = f₀.severity ∧
          g.title = f₀.title ∧ g.description = f₀.description ∧
          g.recommendation = f₀.recommendation)) →
    (((fs.foldl addFinding acc).map (fun g => g.rule_id)).Nodup ∧
     (∀ k, k ∈ (fs.foldl addFinding acc).map (fun g => g.rule_id) ↔
        k ∈ (processed ++ fs).map (fun x => x.rule_id)) ∧
     (∀ g ∈ fs.foldl addFinding acc,
        g.hits = (processed ++ fs).filter (fun x => x.rule_id == g.rule_id) ∧
        ∃ f₀ t, g.hits = f₀ :: t ∧ g.severity = f₀.severity ∧
          g.title = f₀.title ∧ g.description = f₀.description ∧
          g.recommendation = f₀.recommendation)) := by
  induction fs with
  | nil =>
    intro acc processed h
    simpa using h
  | cons f fs ih =>
    intro acc processed h
    obtain ⟨hnd, hk, hg⟩ := h
    have hstep := addFinding_inv acc processed f hnd hk hg
    have := ih (addFinding acc f) (processed ++ [f]) hstep
    simpa [List.append_assoc] using this

theorem groupByRule_spec (fs : List FindingRow) :
    ((groupByRule fs).map (fun g => g.rule_id)).Nodup ∧
    (∀ k, k ∈ (groupByRule fs).map (fun g => g.rule_id) ↔
       k ∈ fs.map (fun x => x.rule_id)) ∧
    (∀ g ∈ groupByRule fs,
       g.hits = fs.filter (fun x => x.rule_id == g.rule_id) ∧
       ∃ f₀ t, g.hits = f₀ :: t ∧ g.severity = f₀.severity ∧
         g.title = f₀.title ∧ g.description = f₀.description ∧
         g.recommendation = f₀.recommendation) := by
  have h := foldl_addFinding_inv fs [] [] (by simp)
  simpa [groupByRule] using h

theorem length_filter_partition (ks : List String) :
    ∀ (fs : List FindingRow), ks.Nodup → (∀ f ∈ fs, f.rule_id ∈ ks) →
    (ks.map (fun k => (fs.filter (fun f => f.rule_id == k)).length)).sum =
      fs.length := by
  induction ks with
  | nil =>
    intro fs _ hmem
    have hfs : fs = [] := by
      cases fs with
      | nil => rfl
      | cons a t => exact absurd (hmem a (by simp)) (by simp)
    rw [hfs]
    rfl
  | cons k ks ih =>
    intro fs hnd hmem
    have hk_notin : k ∉ ks := (List.nodup_cons.mp hnd).1
    have hnd' : ks.Nodup := (List.nodup_cons.mp hnd).2
    rw [List.map_cons, List.sum_cons]
    have hrest : (ks.map (fun k' =>
        (fs.filter (fun f => f.rule_id == k')).length)).sum =
        (fs.filter (fun f => f.rule_id != k)).length := by
      have hcongr : ks.map (fun k' =>
          (fs.filter (fun f => f.rule_id == k')).length) =
          ks.map (fun k' =>
          ((fs.filter (fun f => f.rule_id != k)).filter
            (fun f => f.rule_id == k')).length) := by
        apply List.map_congr_left
        intro k' hk'
        have hne : k' ≠ k := fun hc => hk_notin (hc ▸ hk')
        rw [List.filter_filter]
        congr 1
        apply List.filter_congr
        intro f _
        by_cases hf : f.rule_id == k'
        · have : f.rule_id ≠ k := fun hc => hne (by
            rw [beq_iff_eq] at hf
            rw [← hf, hc])
          simp [hf, this]
        · simp [hf]
      rw [hcongr]
      apply ih
      · exact hnd'
      · intro f hf
        have hin := hmem f (List.mem_of_mem_filter hf)
        have hneq : (f.rule_id != k) = true := (List.mem_filter.mp hf).2
        rw [bne_iff_ne] at hneq
        rcases List.mem_cons.mp hin with h | h
        · exact absurd h hneq
        · exact h
    rw [hrest]
    have h3 := List.length_eq_length_filter_add (l := fs)
      (fun f => f.rule_id == k)
    rw [h3]
    rfl

/-- C5.  Grouping a findings list yields exactly one group per distinct
rule id; each group's hit list is the subsequence of the input with that
rule id, in input order, with the representative fields taken from its
first member; and the hit-list lengths sum to the input length. -/
theorem findings_grouping (fs : List FindingRow) :
    (groupedFindings fs).length = (fs.map (fun f => f.rule_id)).toFinset.card ∧
    (∀ g ∈ groupedFindings fs,
       g.hits = fs.filter (fun x => x.rule_id == g.rule_id) ∧
       ∃ f₀ t, g.hits = f₀ :: t ∧ g.severity = f₀.severity ∧
         g.title = f₀.title ∧ g.description = f₀.description ∧
         g.recommendation = f₀.recommendation) ∧
    ((groupedFindings fs).map (fun g => g.hits.length)).sum = fs.length := by
  obtain ⟨hnd, hk, hg⟩ := groupByRule_spec fs
  have hperm : (groupedFindings fs).Perm (groupByRule fs) :=
    List.mergeSort_perm _ _
  refine ⟨?_, ?_, ?_⟩
  · rw [hperm.length_eq]
    have hfinset : ((groupByRule fs).map (fun g => g.rule_id)).toFinset =
        (fs.map (fun x => x.rule_id)).toFinset := by
      ext k
      simp only [List.mem_toFinset]
      exact hk k
    calc (groupByRule fs).length
        = ((groupByRule fs).map (fun g => g.rule_id)).length := by
          rw [List.length_map]
      _ = ((groupByRule fs).map (fun g => g.rule_id)).toFinset.card := by
          rw [List.toFinset_card_of_nodup hnd]
      _ = (fs.map (fun x => x.rule_id)).toFinset.card := by rw [hfinset]
  · intro g hgmem
    exact hg g (List.mem_mergeSort.mp hgmem)
  · have hmapperm :
        ((groupedFindings fs).map (fun g => g.hits.length)).Perm
          ((groupByRule fs).map (fun g => g.hits.length)) := hperm.map _
    rw [hmapperm.sum_eq]
    have hcongr : (groupByRule fs).map (fun g => g.hits.length) =
        (groupByRule fs).map
          (fun g => (fs.filter (fun x => x.rule_id == g.rule_id)).length) :=
      List.map_congr_left (fun g hgm => by rw [(hg g hgm).1])
    rw [hcongr]
    have hpart := length_filter_partition
      ((groupByRule fs).map (fun g => g.rule_id)) fs hnd
      (fun f hf => (hk _).mpr (List.mem_map.mpr ⟨f, hf, rfl⟩))
    rw [List.map_map] at hpart
    exact hpart

theorem groupLe_iff (a b : RuleGroup) :
    groupLe a b = true ↔
      (sevIndex a.severity < sevIndex b.severity ∨
       (sevIndex a.severity = sevIndex b.severity ∧ a.rule_id ≤ b.rule_id)) := by
  unfold groupLe groupCompare localeCmp
  by_cases h : sevIndex a.severity = sevIndex b.severity
  · rcases lt_trichotomy a.rule_id b.rule_id with h2 | h2 | h2
    · simp [h, h2, le_of_lt h2]
    · simp [h, h2]
    · simp [h, h2, not_lt_of_lt h2, not_le_of_lt h2]
  · simp only [h, if_false, decide_eq_true_eq, false_and, or_false, if_neg h]
    omega

theorem groupLe_trans (a b c : RuleGroup) (hab : groupLe a b = true)
    (hbc : groupLe b c = true) : groupLe a c = true := by
  rw [groupLe_iff] at hab hbc ⊢
  rcases hab with h | ⟨h1, h2⟩ <;> rcases hbc with h' | ⟨h1', h2'⟩
  · exact Or.inl (lt_trans h h')
  · exact Or.inl (h1' ▸ h)
  · exact Or.inl (h1 ▸ h')
  · exact Or.inr ⟨h1.trans h1', le_trans h2 h2'⟩

theorem groupLe_total (a b : RuleGroup) :
    (groupLe a b || groupLe b a) = true := by
  rw [Bool.or_eq_true, groupLe_iff, groupLe_iff]
  rcases lt_trichotomy (sevIndex a.severity) (sevIndex b.severity) with h | h | h
  · exact Or.inl (Or.inl h)
  · rcases le_total a.rule_id b.rule_id with h2 | h2
    · exact Or.inl (Or.inr ⟨h, h2⟩)
    · exact Or.inr (Or.inr ⟨h.symm, h2⟩)
  · exact Or.inr (Or.inl h)

/-- C6.  The grouped findings output is sorted: severity index
non-decreasing (CRITICAL, HIGH, MEDIUM, LOW, INFO), and rule id
non-decreasing within equal severity index. -/
theorem grouped_severity_order (fs : List FindingRow)
    (h : ∀ f ∈ fs, f.severity ∈ SEV_ORDER) :
    (groupedFindings fs).Pairwise (fun a b =>
      sevIndex a.severity ≤ sevIndex b.severity ∧
      (sevIndex a.severity = sevIndex b.severity → a.rule_id ≤ b.rule_id)) := by
  have hs := List.sorted_mergeSort groupLe_trans groupLe_total (groupByRule fs)
  refine hs.imp ?_
  intro a b hab
  rw [groupLe_iff] at hab
  rcases hab with h2 | ⟨h1, h2⟩
  · exact ⟨le_of_lt h2, fun heq => absurd (heq ▸ h2) (lt_irrefl _)⟩
  · exact ⟨h1.le, fun _ => h2⟩

theorem grouped_severity_order_witness :
    (∀ f ∈ [demoFinding], f.severity ∈ SEV_ORDER) ∧
    (groupedFindings [demoFinding]).Pairwise (fun a b =>
      sevIndex a.severity ≤ sevIndex b.severity ∧
      (sevIndex a.severity = sevIndex b.severity → a.rule_id ≤ b.rule_id)) :=
  ⟨by decide, grouped_severity_order [demoFinding] (by decide)⟩

theorem riskiestLe_iff (a b : Skill) :
    riskiestLe a b = true ↔
      (riskRank a.scan_risk_level < riskRank b.scan_risk_level ∨
       (riskRank a.scan_risk_level = riskRank b.scan_risk_level ∧
        b.scan_findings_count ≤ a.scan_findings_count)) := by
  unfold riskiestLe
  simp [Bool.or_eq_true, Bool.and_eq_true, decide_eq_true_eq]

theorem riskiestLe_trans (a b c : Skill) (hab : riskiestLe a b = true)
    (hbc : riskiestLe b c = true) : riskiestLe a c = true := by
  rw [riskiestLe_iff] at hab hbc ⊢
  rcases hab with h | ⟨h1, h2⟩ <;> rcases hbc with h' | ⟨h1', h2'⟩ <;>
    [exact Or.inl (lt_trans h h'); exact Or.inl (h1' ▸ h);
     exact Or.inl (h1 ▸ h'); exact Or.inr ⟨h1.trans h1', le_trans h2' h2⟩]

theorem riskiestLe_total (a b : Skill) :
    (riskiestLe a b || riskiestLe b a) = true := by
  rw [Bool.or_eq_true, riskiestLe_iff, riskiestLe_iff]
  omega

/-- C3 (amended).  Every row of the risk-ranked top list comes from a
non-deleted skill whose level is CRITICAL, HIGH, MEDIUM, LOW or CLEAN
(only UNKNOWN is excluded); the list holds at most 50 rows, is ordered by
rank ascending then findings descending, and in particular no HIGH row
ever precedes a CRITICAL row. -/
theorem riskiest_query_spec (skills : List Skill) :
    (∀ r ∈ riskiestQuery skills,
       (r.level = "CRITICAL" ∨ r.level = "HIGH" ∨ r.level = "MEDIUM" ∨
        r.level = "LOW" ∨ r.level = "CLEAN") ∧
       ∃ s ∈ skills, s.is_deleted = false ∧ r = projRisk s) ∧
    (riskiestQuery skills).length ≤ 50 ∧
    (riskiestQuery skills).Pairwise (fun a b =>
      riskRank a.level < riskRank b.level ∨
      (riskRank a.level = riskRank b.level ∧ b.findings ≤ a.findings)) ∧
    (riskiestQuery skills).Pairwise (fun a b =>
      ¬(a.level = "HIGH" ∧ b.level = "CRITICAL")) := by
  have hsorted := List.sorted_mergeSort riskiestLe_trans riskiestLe_total
    (skills.filter riskiestPred)
  have hpair : (riskiestQuery skills).Pairwise (fun a b =>
      riskRank a.level < riskRank b.level ∨
      (riskRank a.level = riskRank b.level ∧ b.findings ≤ a.findings)) := by
    unfold riskiestQuery
    apply List.Pairwise.sublist (List.take_sublist _ _)
    rw [List.pairwise_map]
    refine hsorted.imp ?_
    intro a b hab
    rw [riskiestLe_iff] at hab
    exact hab
  refine ⟨?_, ?_, hpair, ?_⟩
  · intro r hr
    have hr2 := List.mem_of_mem_take hr
    obtain ⟨s, hs1, hs2⟩ := List.mem_map.mp hr2
    have hs3 := List.mem_mergeSort.mp hs1
    have hs4 := List.mem_filter.mp hs3
    have hpred := hs4.2
    unfold riskiestPred at hpred
    simp only [Bool.and_eq_true, Bool.or_eq_true, beq_iff_eq,
      Bool.not_eq_true'] at hpred
    refine ⟨?_, s, hs4.1, hpred.2, hs2.symm⟩
    have hlevel : r.level = s.scan_risk_level := by
      rw [← hs2]
      rfl
    rw [hlevel]
    tauto
  · exact List.length_take_le _ _
  · refine hpair.imp ?_
    intro a b hab
    rintro ⟨ha, hb⟩
    rw [ha, hb] at hab
    have h1 : riskRank "HIGH" = 1 := by decide
    have h2 : riskRank "CRITICAL" = 0 := by decide
    rw [h1, h2] at hab
    omega

/-- C3 (counterexample).  A non-deleted CLEAN skill appears in the
risk-ranked top list, so the list is not restricted to
CRITICAL/HIGH/MEDIUM/LOW entries. -/
theorem riskiest_includes_clean :
    ∃ r, r ∈ riskiestQuery [cleanSkill] ∧
      r.level ∉ (["CRITICAL", "HIGH", "MEDIUM", "LOW"] : List String) := by
  refine ⟨projRisk cleanSkill, ?_, by decide⟩
  have h1 : [cleanSkill].filter riskiestPred = [cleanSkill] := by decide
  unfold riskiestQuery
  rw [h1, List.mergeSort_singleton]
  simp

theorem find?_map_upsert (acc : List (String × List FindingRow)) (k p : String)
    (r : FindingRow) :
    (acc.map (fun q => if q.1 == k then (q.1, q.2 ++ [r]) else q)).find?
        (fun q => q.1 == p) =
      (acc.find? (fun q => q.1 == p)).map
        (fun q => if q.1 == k then (q.1, q.2 ++ [r]) else q) := by
  induction acc with
  | nil => rfl
  | cons a t ih =>
    have hfst : (if a.1 == k then (a.1, a.2 ++ [r]) else a).1 = a.1 := by
      by_cases h2 : a.1 == k <;> simp [h2]
    rw [List.map_cons, List.find?_cons, List.find?_cons, hfst]
    by_cases h : a.1 == p
    · simp [h]
    · simp only [h]
      exact ih

theorem addToSkillMap_lookup (acc : List (String × List FindingRow))
    (processed : List FindingRow) (r : FindingRow)
    (h : ∀ p, lookupFindings acc p =
          processed.filter (fun x => x.skill_path == p)) :
    ∀ p, lookupFindings (addToSkillMap acc r) p =
      (processed ++ [r]).filter (fun x => x.skill_path == p) := by
  intro p
  have hr_filter_eq : p = r.skill_path →
      (List.filter (fun x => x.skill_path == p) [r]) = [r] := by
    intro hp
    simp [hp]
  have hr_filter_ne : p ≠ r.skill_path →
      (List.filter (fun x => x.skill_path == p) [r]) = [] := by
    intro hp
    simp only [List.filter_cons, List.filter_nil]
    rw [if_neg]
    intro hc
    exact hp (beq_iff_eq.mp hc).symm
  unfold addToSkillMap
  by_cases hmem : acc.any (fun q => q.1 == r.skill_path)
  · rw [if_pos hmem]
    unfold lookupFindings
    rw [find?_map_upsert]
    cases hfind : acc.find? (fun q => q.1 == p) with
    | none =>
      simp only [Option.map_none']
      have hlook : lookupFindings acc p = [] := by
        unfold lookupFindings
        rw [hfind]
      rw [h p] at hlook
      have hp : p ≠ r.skill_path := by
        intro hp
        have hsome : (acc.find? (fun q => q.1 == p)).isSome = true := by
          rw [List.find?_isSome]
          rw [List.any_eq_true] at hmem
          obtain ⟨q, hq1, hq2⟩ := hmem
          refine ⟨q, hq1, ?_⟩
          rw [hp]
          exact hq2
        rw [hfind] at hsome
        simp at hsome
      rw [List.filter_append, hr_filter_ne hp, List.append_nil]
      exact hlook.symm
    | some e =>
      have he1 : (e.1 == p) = true := by
        have h0 := List.find?_some hfind
        exact h0
      have hlook : lookupFindings acc p = e.2 := by
        unfold lookupFindings
        rw [hfind]
      have hfilter : e.2 = processed.filter (fun x => x.skill_path == p) := by
        rw [← hlook]
        exact h p
      simp only [Option.map_some']
      by_cases hp : p = r.skill_path
      · have he2 : (e.1 == r.skill_path) = true := by
          rw [← hp]
          exact he1
        rw [if_pos he2]
        rw [List.filter_append, ← hfilter, hr_filter_eq hp]
      · have he2 : ¬(e.1 == r.skill_path) = true := by
          intro hc
          exact hp ((beq_iff_eq.mp he1).symm.trans (beq_iff_eq.mp hc))
        rw [if_neg he2]
        rw [List.filter_append, ← hfilter, hr_filter_ne hp, List.append_nil]
  · rw [if_neg hmem]
    unfold lookupFindings
    rw [List.find?_append]
    by_cases hp : p = r.skill_path
    · have hnone : acc.find? (fun q => q.1 == p) = none := by
        rw [List.find?_eq_none]
        intro x hx hc
        apply hmem
        apply List.any_eq_true.mpr
        refine ⟨x, hx, ?_⟩
        rw [← hp]
        exact hc
      rw [hnone, Option.none_or]
      have hsingle : (([(r.skill_path, [r])] :
          List (String × List FindingRow)).find? (fun q => q.1 == p)) =
            some (r.skill_path, [r]) := by
        rw [List.find?_cons]
        have : (r.skill_path == p) = true := beq_iff_eq.mpr hp.symm
        rw [this]
      rw [hsingle]
      have hpf : processed.filter (fun x => x.skill_path == p) = [] := by
        have h2 := h p
        unfold lookupFindings at h2
        rw [hnone] at h2
        exact h2.symm
      rw [List.filter_append, hpf, List.nil_append, hr_filter_eq hp]
    · have hsingle : (([(r.skill_path, [r])] :
          List (String × List FindingRow)).find? (fun q => q.1 == p)) = none := by
        rw [List.find?_cons]
        have : (r.skill_path == p) = false := by
          rw [beq_eq_false_iff_ne]
          exact fun hc => hp hc.symm
        rw [this]
        rfl
      rw [hsingle, Option.or_none]
      have h2 := h p
      unfold lookupFindings at h2
      rw [List.filter_append, hr_filter_ne hp, List.append_nil]
      exact h2

theorem findingsBySkill_lookup (rows : List FindingRow) :
    ∀ p, lookupFindings (findingsBySkill rows) p =
      rows.filter (fun x => x.skill_path == p) := by
  suffices h : ∀ (acc : List (String × List FindingRow))
      (processed : List FindingRow),
      (∀ p, lookupFindings acc p =
        processed.filter (fun x => x.skill_path == p)) →
      ∀ p, lookupFindings (rows.foldl addToSkillMap acc) p =
        (processed ++ rows).filter (fun x => x.skill_path == p) by
    intro p
    have h0 := h [] [] (fun p => by simp [lookupFindings]) p
    simpa [findingsBySkill] using h0
  induction rows with
  | nil =>
    intro acc processed hinv p
    simpa using hinv p
  | cons r rows ih =>
    intro acc processed hinv p
    have hstep := addToSkillMap_lookup acc processed r hinv
    have h0 := ih (addToSkillMap acc r) (processed ++ [r]) hstep p
    simpa [List.append_assoc] using h0

/-- C10.  A finding whose skill path names no non-deleted skill stays in
the ordered findings relation, yet is absent from the findings group of
every row of the browse list — the per-entry aggregate the detail view
reads. -/
theorem orphan_findings_excluded (skills : List Skill)
    (findings : List FindingRow) (f : FindingRow) (hf : f ∈ findings)
    (horphan : ∀ s ∈ skills, s.is_deleted = false →
       s.skill_path ≠ f.skill_path) :
    f ∈ allFindingsQuery findings ∧
    ∀ e ∈ browseSkillsVm skills,
      f ∉ lookupFindings (findingsBySkill (allFindingsQuery findings))
        e.skill_path := by
  constructor
  · exact List.mem_mergeSort.mpr hf
  · intro e he hmem
    rw [findingsBySkill_lookup] at hmem
    have hfp : f.skill_path = e.skill_path :=
      beq_iff_eq.mp (List.mem_filter.mp hmem).2
    obtain ⟨raw, hraw, hee⟩ := List.mem_map.mp he
    have hraw2 := List.mem_mergeSort.mp hraw
    obtain ⟨s, hs, hrs⟩ := List.mem_map.mp hraw2
    have hsf := List.mem_filter.mp hs
    have hdel : s.is_deleted = false := by
      have h2 := hsf.2
      simp only [Bool.not_eq_true'] at h2
      exact h2
    have hpath : e.skill_path = s.skill_path := by
      rw [← hee, ← hrs]
      rfl
    exact horphan s hsf.1 hdel (hfp.trans hpath).symm

theorem orphan_findings_excluded_witness :
    (orphanFinding ∈ ([orphanFinding] : List FindingRow) ∧
     ∀ s ∈ ([liveSkill] : List Skill), s.is_deleted = false →
       s.skill_path ≠ orphanFinding.skill_path) ∧
    (orphanFinding ∈ allFindingsQuery [orphanFinding] ∧
     ∀ e ∈ browseSkillsVm [liveSkill],
       orphanFinding ∉ lookupFindings
         (findingsBySkill (allFindingsQuery [orphanFinding])) e.skill_path) :=
  ⟨⟨by decide, by decide⟩,
   orphan_findings_excluded [liveSkill] [orphanFinding] orphanFinding
     (by decide) (by decide)⟩

/-- C1.  In an uncancelled run, either every step succeeds and exactly one
event is emitted — the publish of the fully assembled view-model — or some
step fails and exactly one event is emitted — a single terminal error; no
partial view-model is ever published. -/
theorem ingestion_atomic (inp : PipelineInput)
    (h1 : inp.cancelledAtFetch = false) (h2 : inp.cancelledAtAuthors = false)
    (h3 : inp.cancelledAtGather = false) (h4 : inp.cancelledAtCatch = false) :
    ((∃ profiles raw g,
        runLoad inp = [LoadEvent.publish (assembleVM profiles raw g)]) ∧
      pipelineOk inp = true) ∨
    ((∃ e, runLoad inp = [LoadEvent.fail e]) ∧ pipelineOk inp = false) := by
  unfold runLoad
  simp only [h1, h2, h3, h4]
  cases hdb : inp.initDb with
  | error e =>
    refine Or.inr ⟨⟨e, rfl⟩, ?_⟩
    simp [pipelineOk, hdb, Except.isOk, Except.toBool]
  | ok u =>
  cases hsf : inp.skillsFetch with
  | error e =>
    refine Or.inr ⟨⟨e, rfl⟩, ?_⟩
    simp [pipelineOk, hsf, Except.isOk, Except.toBool]
  | ok u2 =>
  cases hff : inp.findingsFetch with
  | error e =>
    refine Or.inr ⟨⟨e, rfl⟩, ?_⟩
    simp [pipelineOk, hff, Except.isOk, Except.toBool]
  | ok u3 =>
  cases hls : inp.loadSkills with
  | error e =>
    refine Or.inr ⟨⟨e, rfl⟩, ?_⟩
    simp [pipelineOk, hls, Except.isOk, Except.toBool]
  | ok u4 =>
  cases hlf : inp.loadFindings with
  | error e =>
    refine Or.inr ⟨⟨e, rfl⟩, ?_⟩
    simp [pipelineOk, hlf, Except.isOk, Except.toBool]
  | ok u5 =>
  cases has : authorsStage inp with
  | error e =>
    refine Or.inr ⟨⟨e, rfl⟩, ?_⟩
    simp [pipelineOk, has, Except.isOk, Except.toBool]
  | ok prof =>
  cases hqg : inp.queryGather with
  | error e =>
    refine Or.inr ⟨⟨e, rfl⟩, ?_⟩
    simp [pipelineOk, hqg, Except.isOk, Except.toBool]
  | ok g =>
  cases hst : g.statsRow with
  | nil =>
    refine Or.inr ⟨⟨"Cannot convert undefined or null to object", ?_⟩, ?_⟩
    · simp [hst]
    · simp [pipelineOk, hdb, hsf, hff, hls, hlf, has, hqg, hst,
        Except.isOk, Except.toBool]
  | cons raw rest =>
    refine Or.inl ⟨⟨prof, raw, g, ?_⟩, ?_⟩
    · simp [hst]
    · simp [pipelineOk, hdb, hsf, hff, hls, hlf, has, hqg, hst,
        Except.isOk, Except.toBool]

/-- C8.  If cancellation is raised after the relation loads but before the
query gather settles (and is still set when the catch handler would run),
the run emits nothing at all: a gather resolution and a gather rejection
are both silently discarded. -/
theorem cancellation_silent (inp : PipelineInput)
    (hg : inp.cancelledAtGather = true) (hc : inp.cancelledAtCatch = true)
    (hf1 : inp.cancelledAtFetch = false) (hf2 : inp.cancelledAtAuthors = false)
    (hdb : inp.initDb.isOk = true) (hsf : inp.skillsFetch.isOk = true)
    (hff : inp.findingsFetch.isOk = true) (hls : inp.loadSkills.isOk = true)
    (hlf : inp.loadFindings.isOk = true)
    (has : (authorsStage inp).isOk = true) :
    runLoad inp = [] := by
  unfold runLoad
  simp only [hf1, hf2, hg, hc]
  cases hdb2 : inp.initDb with
  | error e =>
    rw [hdb2] at hdb
    simp [Except.isOk, Except.toBool] at hdb
  | ok u =>
  cases hsf2 : inp.skillsFetch with
  | error e =>
    rw [hsf2] at hsf
    simp [Except.isOk, Except.toBool] at hsf
  | ok u2 =>
  cases hff2 : inp.findingsFetch with
  | error e =>
    rw [hff2] at hff
    simp [Except.isOk, Except.toBool] at hff
  | ok u3 =>
  cases hls2 : inp.loadSkills with
  | error e =>
    rw [hls2] at hls
    simp [Except.isOk, Except.toBool] at hls
  | ok u4 =>
  cases hlf2 : inp.loadFindings with
  | error e =>
    rw [hlf2] at hlf
    simp [Except.isOk, Except.toBool] at hlf
  | ok u5 =>
  cases has2 : authorsStage inp with
  | error e =>
    rw [has2] at has
    simp [Except.isOk, Except.toBool] at has
  | ok prof =>
  cases hqg2 : inp.queryGather with
  | error e => rfl
  | ok g => rfl

/-- C9.  When the optional author-profiles fetch fails (network error or a
non-ok response), an otherwise successful run still publishes the
view-model, with an empty author-profile map and no error event. -/
theorem authors_optional (inp : PipelineInput) (g : Gather)
    (raw : List (String × Int)) (rest : List (List (String × Int)))
    (h1 : inp.cancelledAtFetch = false) (h2 : inp.cancelledAtAuthors = false)
    (h3 : inp.cancelledAtGather = false) (h4 : inp.cancelledAtCatch = false)
    (hdb : inp.initDb.isOk = true) (hsf : inp.skillsFetch.isOk = true)
    (hff : inp.findingsFetch.isOk = true) (hls : inp.loadSkills.isOk = true)
    (hlf : inp.loadFindings.isOk = true)
    (haf : authorsFetchFailed inp = true)
    (hq : inp.queryGather = Except.ok g) (hs : g.statsRow = raw :: rest) :
    runLoad inp = [LoadEvent.publish (assembleVM [] raw g)] ∧
    (assembleVM [] raw g).authorProfiles = [] := by
  have hstage : authorsStage inp = Except.ok [] := by
    unfold authorsStage authorsBufOf
    unfold authorsFetchFailed at haf
    cases ha : inp.authorsFetch with
    | error e => rfl
    | ok r =>
      rw [ha] at haf
      have hok : r.ok = false := by simpa using haf
      simp [hok]
  refine ⟨?_, rfl⟩
  unfold runLoad
  simp only [h1, h2, h3, h4]
  cases hdb2 : inp.initDb with
  | error e =>
    rw [hdb2] at hdb
    simp [Except.isOk, Except.toBool] at hdb
  | ok u =>
  cases hsf2 : inp.skillsFetch with
  | error e =>
    rw [hsf2] at hsf
    simp [Except.isOk, Except.toBool] at hsf
  | ok u2 =>
  cases hff2 : inp.findingsFetch with
  | error e =>
    rw [hff2] at hff
    simp [Except.isOk, Except.toBool] at hff
  | ok u3 =>
  cases hls2 : inp.loadSkills with
  | error e =>
    rw [hls2] at hls
    simp [Except.isOk, Except.toBool] at hls
  | ok u4 =>
  cases hlf2 : inp.loadFindings with
  | error e =>
    rw [hlf2] at hlf
    simp [Except.isOk, Except.toBool] at hlf
  | ok u5 =>
  rw [hstage, hq]
  simp [hs]

theorem ingestion_atomic_witness :
    (∃ profiles raw g,
        runLoad inpOk = [LoadEvent.publish (assembleVM profiles raw g)]) ∨
    (∃ e, runLoad inpOk = [LoadEvent.fail e]) := by
  rcases ingestion_atomic inpOk rfl rfl rfl rfl with ⟨h, _⟩ | ⟨h, _⟩
  · exact Or.inl h
  · exact Or.inr h

theorem cancellation_silent_witness : runLoad inpCancelled = [] :=
  cancellation_silent inpCancelled rfl rfl rfl rfl rfl rfl rfl rfl rfl rfl

theorem authors_optional_witness :
    runLoad inpNoAuthors =
      [LoadEvent.publish (assembleVM []
        [("total_active", 1), ("total_deleted", 0)] demoGather)] ∧
    (assembleVM [] [("total_active", 1), ("total_deleted", 0)]
      demoGather).authorProfiles = [] :=
  authors_optional inpNoAuthors demoGather
    [("total_active", 1), ("total_deleted", 0)] [] rfl rfl rfl rfl rfl rfl
    rfl rfl rfl rfl rfl rfl
